import Mathlib

/-!
Shallow embedding of the PR-enrichment pipeline, the bounded-retry HTTP
client, the repository-context collector and the session-list pagination of
`arii/hrm-project-management`.

Two sibling implementations exist in the repository and are embedded side by
side wherever they differ:
  * `src/python/github_service.py` (`GithubService`), prefixed `service` here;
  * `src/python_lib/github_client/client.py` (`GitHubClient`), prefixed
    `client` here.
The per-PR HTTP fetches are modelled as pure oracles (`Fetches`): a fetch
either raises (`Except.error`) or returns a parsed JSON payload.  Python
values that matter to control flow (missing keys, `None` fields, JSON arrays
versus objects) are modelled with `Option` and small inductive types.
-/

namespace HRM

/-- A projected check run, as produced by `fetch_check_runs`
(`github_service.py:110-115`, `client.py:114-119`): the four fields
`name`, `status`, `conclusion`, `url`.  `conclusion` is `null` for runs that
have not finished, hence `Option String`. -/
structure CheckRun where
  name : String
  status : String
  conclusion : Option String
  url : String
  deriving Repr, DecidableEq

/-- A raw provider check run as it appears in the JSON payload
(`run['name']`, `run['status']`, `run['conclusion']`, `run['html_url']`). -/
structure RawRun where
  name : String
  status : String
  conclusion : Option String
  html_url : String
  deriving Repr, DecidableEq

/-- The JSON body answered by `GET /repos/{repo}/commits/{ref}/check-runs`:
the `check_runs` key may be missing (malformed response), hence `Option`. -/
structure CheckRunsResp where
  check_runs : Option (List RawRun)
  deriving Repr, DecidableEq

/-- Projection of one raw run performed inside `fetch_check_runs`. -/
def projectRun (r : RawRun) : CheckRun :=
  { name := r.name, status := r.status, conclusion := r.conclusion, url := r.html_url }

/-- Embeds `fetch_check_runs` (`github_service.py:107-117`, `client.py:111-121`):
the whole body is wrapped in `try/except: return []`, so a raised underlying
request, or a payload with no `check_runs` key (a `KeyError` in the service,
a `.get(..., [])` default in the client), yields `[]`; otherwise the runs are
projected.  Both implementations produce the same value, and the function is
total: it never raises at its public interface. -/
def fetchCheckRuns (req : Except Unit CheckRunsResp) : List CheckRun :=
  match req with
  | .error _ => []
  | .ok resp =>
    match resp.check_runs with
    | none => []
    | some runs => runs.map projectRun

/-- Embeds `r['conclusion'] in ['failure', 'timed_out']`
(`github_service.py:170`, `client.py:233`). -/
def isFailedRun (r : CheckRun) : Bool :=
  r.conclusion == some "failure" || r.conclusion == some "timed_out"

/-- Embeds `r['status'] != 'completed'` (`github_service.py:171`, `client.py:234`). -/
def isPendingRun (r : CheckRun) : Bool :=
  !(r.status == "completed")

/-- The `test_status` computation at the enrichment join point
(`github_service.py:170-179`, `client.py:232-241`): two counts followed by a
three-way `if/elif/elif` over `failed_count`, `pending_count`, and
`len(check_results)`. -/
def computeTestStatus (runs : List CheckRun) : String :=
  let failedCount := (runs.filter isFailedRun).length
  let pendingCount := (runs.filter isPendingRun).length
  if failedCount > 0 then "failed"
  else if pendingCount > 0 then "pending"
  else if runs.length > 0 then "passed"
  else "unknown"

/-- Modelled from the spec's wording of the `testStatus` rule: `failed` if
ANY check-run conclusion is `failure` or `timed_out`; else `pending` if ANY
check-run's status is not `completed`; else `passed` if at least one
check-run exists; else `unknown` — the four cases in that fixed order.  Used
as the specification side of the refinement for claim C1. -/
def specTestStatus (runs : List CheckRun) : String :=
  if runs.any isFailedRun then "failed"
  else if runs.any isPendingRun then "pending"
  else if !runs.isEmpty then "passed"
  else "unknown"

/-- One PR review as consumed by the enrichment: `r['user']['login']` and
`r['state']`. -/
structure Review where
  login : String
  state : String
  deriving Repr, DecidableEq

/-- One step of `latest_reviews_by_user[r['user']['login']] = r['state']`
(`github_service.py:181-183`, `client.py:243-245`): Python dict assignment on
an insertion-ordered dict — an existing key keeps its position and gets the
new value, a fresh key is appended. -/
def upsertLogin (m : List (String × String)) (k v : String) :
    List (String × String) :=
  if m.any (fun p => p.1 == k) then
    m.map (fun p => if p.1 == k then (k, v) else p)
  else
    m ++ [(k, v)]

/-- The `latest_reviews_by_user` dict after the `for r in reviews` loop. -/
def latestReviewsByUser (rs : List Review) : List (String × String) :=
  rs.foldl (fun m r => upsertLogin m r.login r.state) []

/-- Embeds `is_approved = 'APPROVED' in review_states and 'CHANGES_REQUESTED' not in
review_states` over `review_states = list(latest_reviews_by_user.values())`
(`github_service.py:185-186`, `client.py:247-248`). -/
def isApprovedOf (rs : List Review) : Bool :=
  let states := (latestReviewsByUser rs).map Prod.snd
  states.contains "APPROVED" && !(states.contains "CHANGES_REQUESTED")

/-- Dict lookup in the modelled ordered dict: first entry with the key. -/
def lookupLogin (m : List (String × String)) (k : String) : Option String :=
  (m.find? (fun p => p.1 == k)).map Prod.snd

/-- Specification-side reading for claim C4: the state of the LAST review by
login `k` in list order, `none` when `k` never reviewed. -/
def lastStateFor (rs : List Review) (k : String) : Option String :=
  ((rs.filter (fun r => r.login == k)).getLast?).map Review.state

/-- The slice of a raw open PR used by the enrichment loop: `pr['number']`
and `pr['head']['sha']`.  The remaining raw fields are irrelevant to control
flow and are not modelled individually; a whole `RawPR` stands for the raw
record that gets spread into the degraded fallback. -/
structure RawPR where
  number : Nat
  headSha : String
  deriving Repr, DecidableEq

/-- The slice of a PR detail payload used by the derivations
(`details.get('changed_files', 0)`, `details.get('mergeable')`,
`details['base']['ref']`).  `changed_files` is `none` when the key is
missing and `some none` when the key is present with JSON `null`
(`types.py` declares it `Optional[int]`); `mergeable` collapses missing and
`null` to `none` since `dict.get` treats them alike. -/
structure PRDetails where
  changed_files : Option (Option Int)
  mergeable : Option Bool
  baseRef : String
  deriving Repr, DecidableEq

/-- Which raw dict was spread into the result record: the detail payload
(`{**details, ...}`, success branch) or the original PR
(`{**pr, ...}` / `pr.copy()`, degraded branch). -/
inductive RawBase where
  | fromPR (pr : RawPR)
  | fromDetails (d : PRDetails)
  deriving Repr, DecidableEq

/-- An enriched PR record.  `checkResults` is `none` when the record carries
no `checkResults` key at all (the library client's degraded branch never
sets it) and `some l` when the key is present with list `l`. -/
structure EnrichedPR where
  base : RawBase
  testStatus : String
  checkResults : Option (List CheckRun)
  isApproved : Bool
  isBig : Bool
  isReadyToMerge : Bool
  isLeaderBranch : Bool
  deriving Repr, DecidableEq

/-- The three per-PR fetch oracles.  `fetchDetails`/`fetchReviews` model
`fetch_pr_details`/`fetch_pr_reviews` (either raises or returns a payload);
`checkRunsRequest` models the underlying `_request` made INSIDE
`fetch_check_runs`, keyed by the head sha it is called with. -/
structure Fetches where
  fetchDetails : RawPR → Except Unit PRDetails
  fetchReviews : RawPR → Except Unit (List Review)
  checkRunsRequest : String → Except Unit CheckRunsResp

/-- Embeds `(details.get('changed_files', 0) or 0) > 15` (`github_service.py:193`):
a missing key defaults to `0`, a `null` value is collapsed to `0` by the
`or 0`, so the comparison is total. -/
def serviceIsBig (cf : Option (Option Int)) : Bool :=
  match cf with
  | none => decide ((0 : Int) > 15)
  | some none => decide ((0 : Int) > 15)
  | some (some n) => decide (n > 15)

/-- Embeds `details.get('changed_files', 0) > 15` (`client.py:255`): a missing key
defaults to `0`, but a key present with JSON `null` makes the comparison
`None > 15`, a `TypeError` in Python 3 — modelled as `Except.error`. -/
def clientIsBig (cf : Option (Option Int)) : Except Unit Bool :=
  match cf with
  | none => .ok (decide ((0 : Int) > 15))
  | some none => .error ()
  | some (some n) => .ok (decide (n > 15))

/-- Embeds `details.get('mergeable') is True` (`github_service.py:194`,
`client.py:256`). -/
def isReadyToMergeOf (mergeable : Option Bool) : Bool :=
  match mergeable with
  | some true => true
  | _ => false

/-- Python's `str.lower()`, modelled character-wise (ASCII case folding,
which is all the compared branch names need). -/
def pyLower (s : String) : String :=
  String.mk (s.data.map Char.toLower)

/-- Embeds `details['base']['ref'].lower() in ['leader', 'main', 'master',
'develop']` (`github_service.py:195`, `client.py:257`). -/
def isLeaderBranchOf (ref : String) : Bool :=
  ["leader", "main", "master", "develop"].contains (pyLower ref)

/-- The degraded fallback record of the service
(`github_service.py:199-207`): `{**pr}` plus all six derived keys reset,
including `'checkResults': []`. -/
def serviceDegraded (pr : RawPR) : EnrichedPR :=
  { base := .fromPR pr
    testStatus := "unknown"
    checkResults := some []
    isApproved := false
    isBig := false
    isReadyToMerge := false
    isLeaderBranch := false }

/-- The degraded fallback record of the library client
(`client.py:260-268`): `pr.copy()` updated with FIVE derived keys —
`checkResults` is not among them, so the degraded record carries no
`checkResults` key. -/
def clientDegraded (pr : RawPR) : EnrichedPR :=
  { base := .fromPR pr
    testStatus := "unknown"
    checkResults := none
    isApproved := false
    isBig := false
    isReadyToMerge := false
    isLeaderBranch := false }

/-- One iteration of the service enrichment loop
(`github_service.py:164-207`): the detail fetch, then the review fetch
(either raising lands in the `except` branch), then the never-raising
check-run fetch and the pure derivations. -/
def serviceEnrichPR (f : Fetches) (pr : RawPR) : EnrichedPR :=
  match f.fetchDetails pr with
  | .error _ => serviceDegraded pr
  | .ok d =>
    match f.fetchReviews pr with
    | .error _ => serviceDegraded pr
    | .ok rs =>
      let checkResults := fetchCheckRuns (f.checkRunsRequest pr.headSha)
      { base := .fromDetails d
        testStatus := computeTestStatus checkResults
        checkResults := some checkResults
        isApproved := isApprovedOf rs
        isBig := serviceIsBig d.changed_files
        isReadyToMerge := isReadyToMergeOf d.mergeable
        isLeaderBranch := isLeaderBranchOf d.baseRef }

/-- Embeds `enrich_pr` of the library client (`client.py:220-268`): the three
fetches (a raising detail or review fetch lands in the `except` branch; the
check-run fetch cannot raise), the pure derivations, then the result dict —
whose `'isBig'` entry can itself raise on a `null` `changed_files`, which
also lands in the `except` branch. -/
def clientEnrichPR (f : Fetches) (pr : RawPR) : EnrichedPR :=
  match f.fetchDetails pr with
  | .error _ => clientDegraded pr
  | .ok d =>
    match f.fetchReviews pr with
    | .error _ => clientDegraded pr
    | .ok rs =>
      let checkResults := fetchCheckRuns (f.checkRunsRequest pr.headSha)
      match clientIsBig d.changed_files with
      | .error _ => clientDegraded pr
      | .ok big =>
        { base := .fromDetails d
          testStatus := computeTestStatus checkResults
          checkResults := some checkResults
          isApproved := isApprovedOf rs
          isBig := big
          isReadyToMerge := isReadyToMergeOf d.mergeable
          isLeaderBranch := isLeaderBranchOf d.baseRef }

/-- Embeds `fetch_enriched_pull_requests` of the service
(`github_service.py:159-208`), parameterised by the fetched open-PR list:
`subset = prs[:50]`, then a `for` loop appending one record per subset
entry. -/
def serviceEnrich (f : Fetches) (prs : List RawPR) : List EnrichedPR :=
  let subset := prs.take 50
  subset.foldl (fun results pr => results ++ [serviceEnrichPR f pr]) []

/-- Embeds `fetch_enriched_pull_requests` of the library client
(`client.py:215-276`), parameterised by the fetched open-PR list:
`subset = prs[:50]`, one `enrich_pr` per entry.  The real code collects the
records in thread-pool completion order; that order is nondeterministic and
outside a shallow embedding, so the records are modelled in input order
(every record's CONTENT is the deterministic `clientEnrichPR`). -/
def clientEnrich (f : Fetches) (prs : List RawPR) : List EnrichedPR :=
  let subset := prs.take 50
  subset.foldl (fun results pr => results ++ [clientEnrichPR f pr]) []

/-! ### Bounded-retry HTTP client (`client.py:19-54`) -/

/-- The retry loop of `GitHubClient._request` (`client.py:28-54`).
`transport i` is the outcome of attempt number `i` (the whole `try` body:
issue the request, classify, parse).  The loop starts with `retries = 2`;
on a failure with `retries == 0` the error propagates, otherwise `retries`
is decremented and the client sleeps `2 - retries` seconds.  Returns the
final outcome, the number of attempts made, and the list of performed sleep
durations in order. -/
def retryAux (transport : Nat → Except String String) :
    Nat → Nat → Except String String × Nat × List Nat
  | retries, attempt =>
    match transport attempt with
    | .ok a => (.ok a, attempt + 1, [])
    | .error e =>
      match retries with
      | 0 => (.error e, attempt + 1, [])
      | r + 1 =>
        let rest := retryAux transport r (attempt + 1)
        (rest.1, rest.2.1, (2 - r) :: rest.2.2)

/-- Embeds `GitHubClient._request` as seen by its caller: the loop entered with
`retries = 2` at attempt `0`. -/
def clientRequest (transport : Nat → Except String String) :
    Except String String × Nat × List Nat :=
  retryAux transport 2 0

/-! ### HTTP failure classification (`github_service.py:34-45`,
`client.py:32-41`) -/

/-- The slice of an HTTP response consulted by the classification:
the status code, the `x-ratelimit-remaining` header (absent or a string),
and the `message` field of the body when the body parses as JSON carrying
one (`none` covers both an unparseable body and a parseable body without a
`message` key — the two implementations phrase this identically up to
`dict.get` versus `in`). -/
structure HttpResponse where
  status : Nat
  rateRemaining : Option String
  jsonMessage : Option String
  deriving Repr, DecidableEq

/-- The two failure shapes raised by `_request` before any retrying. -/
inductive RequestFailure where
  | rateLimit
  | api (msg : String)
  deriving Repr, DecidableEq

/-- Embeds `requests.Response.ok`: `raise_for_status` raises exactly for
`400 <= status < 600`, so `ok` is true for every other status (in
particular for every 1xx/3xx status). -/
def okStatus (s : Nat) : Bool :=
  !(decide (400 ≤ s) && decide (s < 600))

/-- The failure classification both `_request` implementations perform on a
response (`github_service.py:34-45`, `client.py:32-41`): first the
rate-limit test (`status == 429 or (status == 403 and
headers.get('x-ratelimit-remaining') == '0')`) with its fixed message, then
`if not response.ok` with the best-effort provider message, else no
failure. -/
def classifyResponse (r : HttpResponse) : Option RequestFailure :=
  if r.status == 429 || (r.status == 403 && r.rateRemaining == some "0") then
    some .rateLimit
  else if !okStatus r.status then
    some (.api (match r.jsonMessage with
      | some m => m
      | none => "Error: " ++ toString r.status))
  else
    none

/-! ### Repository context collector (`github_service.py:210-231`,
`github_service.py:127-135`, `client.py:278-315`, `client.py:189-196`) -/

/-- The outcome of one `GET /repos/{repo}/contents/...` request:
the request raised; a JSON array (directory listing, modelled by its
`path`/`f['path']` entries); a JSON object carrying base64 `content`
(modelled by the DECODED text — base64 decoding is a bijection, and the
empty encoded string decodes to the empty string, so truthiness of the raw
`content` coincides with truthiness of the decoded text); or any other JSON
object (no `content` key, or a non-base64 `encoding`). -/
inductive ContentResp where
  | err
  | listing (paths : List String)
  | fileB64 (decoded : String)
  | objOther
  deriving Repr, DecidableEq

/-- A Python value that a content fetch can leave in a local: a string, a
list, or a (non-empty) JSON-object dict. -/
inductive PyContent where
  | str (s : String)
  | list (xs : List String)
  | obj
  deriving Repr, DecidableEq

/-- Python truthiness of a `PyContent`: the empty string and the empty list
are falsy; the object dicts reaching this model are non-empty, hence
truthy. -/
def pyTruthy : PyContent → Bool
  | .str s => !(s == "")
  | .list xs => !xs.isEmpty
  | .obj => true

/-- Embeds `GithubService.fetch_repo_content` (`github_service.py:127-135`):
any raise yields `None`; a list is returned as-is; a dict is decoded only
when `data.get('content')` is truthy AND `encoding == 'base64'`, otherwise
the dict itself is returned. -/
def serviceFetchRepoContent : ContentResp → Option PyContent
  | .err => none
  | .listing ps => some (.list ps)
  | .fileB64 d => if d == "" then some .obj else some (.str d)
  | .objOther => some .obj

/-- Embeds `GitHubClient.fetch_repo_content` (`client.py:189-196`): any raise
yields `None`; a dict is decoded whenever `'content' in data` and
`encoding == 'base64'` (presence, not truthiness, so an empty file decodes
to `""`); otherwise the raw value is returned. -/
def clientFetchRepoContent : ContentResp → Option PyContent
  | .err => none
  | .listing ps => some (.list ps)
  | .fileB64 d => some (.str d)
  | .objOther => some .obj

/-- Embeds `x or ""`: `None` and falsy values are replaced by the empty string. -/
def pyOrEmptyStr (v : Option PyContent) : PyContent :=
  match v with
  | none => .str ""
  | some c => if pyTruthy c then c else .str ""

/-- Python `s[:1500]` on a string, modelled on the character list (the
`String.take` of core Lean does not reduce inside the kernel). -/
def pyTake1500 (s : String) : String :=
  String.mk (s.data.take 1500)

/-- Python `value[:1500]`: slices strings and lists, raises `TypeError` on a
dict. -/
def pySlice1500 : PyContent → Except Unit PyContent
  | .str s => .ok (.str (pyTake1500 s))
  | .list xs => .ok (.list (xs.take 1500))
  | .obj => .error ()

/-- Embeds `value[:1500] if value else ""` (`github_service.py:228-229`). -/
def serviceSnippet (v : PyContent) : Except Unit PyContent :=
  if pyTruthy v then pySlice1500 v else .ok (.str "")

/-- The context bundle (`RepoContext`).  `readmeSnippet`/`packageJson` are
`PyContent` because the service implementation can leave a sliced LIST in
them when the fetched path is a directory; the client always leaves a
string. -/
structure RepoContext where
  fileList : String
  readmeSnippet : PyContent
  packageJson : PyContent
  hasCI : Bool
  deriving Repr, DecidableEq

/-- Embeds `GithubService.fetch_core_repo_context` (`github_service.py:210-231`),
parameterised by the four request outcomes.  The root and CI listings are
each guarded by their own `try/except`; the README/package fetches go
through `fetch_repo_content` and `or ""`; the final dict slices the two text
fields, which raises (uncaught) when a truthy non-sliceable dict got
through — so the result is `Except`. -/
def serviceFetchCoreRepoContext (root readme pkg ci : ContentResp) :
    Except Unit RepoContext :=
  let fileList :=
    match root with
    | .err => "unknown"
    | .listing ps => String.intercalate ", " ps
    | _ => "unknown"
  let readmeV := pyOrEmptyStr (serviceFetchRepoContent readme)
  let pkgV := pyOrEmptyStr (serviceFetchRepoContent pkg)
  let hasCI :=
    match ci with
    | .listing ps => !ps.isEmpty
    | _ => false
  match serviceSnippet readmeV with
  | .error e => .error e
  | .ok r =>
    match serviceSnippet pkgV with
    | .error e => .error e
    | .ok p => .ok { fileList, readmeSnippet := r, packageJson := p, hasCI }

/-- Embeds `GitHubClient.fetch_core_repo_context` (`client.py:278-315`): a failed
root request is replaced by `[]` (which then joins to the empty string), the
README/package results are coerced to `""` unless they are strings, a failed
CI listing is replaced by `[]`; the final dict re-checks `isinstance` before
slicing, so the function is total. -/
def clientFetchCoreRepoContext (root readme pkg ci : ContentResp) :
    RepoContext :=
  let fileList :=
    match root with
    | .err => String.intercalate ", " []
    | .listing ps => String.intercalate ", " ps
    | _ => "unknown"
  let readmeS :=
    match clientFetchRepoContent readme with
    | some (.str s) => s
    | _ => ""
  let pkgS :=
    match clientFetchRepoContent pkg with
    | some (.str s) => s
    | _ => ""
  let hasCI :=
    match ci with
    | .listing ps => !ps.isEmpty
    | _ => false
  { fileList
    readmeSnippet := .str (pyTake1500 readmeS)
    packageJson := .str (pyTake1500 pkgS)
    hasCI }

/-! Specification-side per-field descriptions of the two collectors, used to
state claim C8 as hypothesis-free equations.  Each field is a function of
its own request outcome alone, which makes the isolated-fallback property
part of the statement. -/

/-- Client `fileList` per root outcome: a raised root listing is replaced by
`[]` and joins to `""`; a non-list JSON payload yields `"unknown"`. -/
def clientFileListSpec : ContentResp → String
  | .err => ""
  | .listing ps => String.intercalate ", " ps
  | _ => "unknown"

/-- Client text-field value per content outcome: the decoded base64 content
truncated to 1500 characters; everything that is not a string (a raise, a
directory listing, a contentless object) becomes `""`. -/
def clientSnippetSpec : ContentResp → String
  | .fileB64 d => pyTake1500 d
  | _ => ""

/-- Service `fileList` per root outcome. -/
def serviceFileListSpec : ContentResp → String
  | .err => "unknown"
  | .listing ps => String.intercalate ", " ps
  | _ => "unknown"

/-- The `hasCI` value per workflow-directory outcome (identical in both
implementations): a non-empty JSON array. -/
def hasCISpec : ContentResp → Bool
  | .listing ps => !ps.isEmpty
  | _ => false

/-- Whether a content outcome makes the SERVICE collector raise: a truthy
dict survives `or ""` and then `value[:1500]` is a `TypeError`.  That
happens exactly for a base64 file with empty content and for any other
contentless JSON object. -/
def serviceRaisesOn : ContentResp → Bool
  | .fileB64 d => d == ""
  | .objOther => true
  | _ => false

/-- Service text-field value per content outcome, meaningful when
`serviceRaisesOn` is false: a non-empty decoded file truncates to 1500
characters; a non-empty directory listing is sliced as a list; a raise or an
empty listing becomes `""`. -/
def serviceSnippetSpec : ContentResp → PyContent
  | .err => .str ""
  | .listing ps => if ps.isEmpty then .str "" else .list (ps.take 1500)
  | .fileB64 d => .str (pyTake1500 d)
  | .objOther => .str ""

/-! ### Session-list pagination (`jules_service.py:45-61`) -/

/-- One page answered by `GET /sessions`: the `sessions` array may be
missing (`if 'sessions' in data`), the `nextPageToken` may be missing.
Session records are opaque here and modelled by `Nat` ids. -/
structure SessionsPage where
  sessions : Option (List Nat)
  nextPageToken : Option String
  deriving Repr, DecidableEq

/-- Python truthiness of `data.get('nextPageToken')`: absent and the empty
string are both falsy (`if not next_token`). -/
def tokenTruthy : Option String → Bool
  | none => false
  | some t => !(t == "")

/-- The `while True` loop of `JulesService.list_sessions`
(`jules_service.py:50-59`), unrolled on the remaining page budget.
`provider i` is the page answered by the `i`-th fetch (the `i`-th response
of the paginated sequence); `i` also equals the value of the Python `pages`
counter before the fetch.  Returns the accumulated sessions and the number
of fetches performed.  The top-level call has `fuel = 5`, and the loop
breaks when `not next_token or pages >= 5`, so fuel never runs out. -/
def listSessionsGo (provider : Nat → SessionsPage) :
    Nat → Nat → List Nat × Nat
  | 0, _ => ([], 0)
  | fuel + 1, i =>
    let page := provider i
    let got := page.sessions.getD []
    if tokenTruthy page.nextPageToken && decide (i + 1 < 5) then
      let rest := listSessionsGo provider fuel (i + 1)
      (got ++ rest.1, rest.2 + 1)
    else
      (got, 1)

/-- Embeds `JulesService.list_sessions`: the loop entered with `pages = 0` and a
budget of 5 pages.  First component: the returned `all_sessions`; second:
the number of page fetches performed. -/
def listSessions (provider : Nat → SessionsPage) : List Nat × Nat :=
  listSessionsGo provider 5 0

/-! ### Concrete fixtures for witnesses and counterexamples -/

/-- A concrete raw PR. -/
def prA : RawPR := { number := 42, headSha := "abc" }

/-- A second concrete raw PR. -/
def prB : RawPR := { number := 7, headSha := "def" }

/-- A concrete detail payload: 20 changed files, mergeable, base `main`. -/
def detailsA : PRDetails :=
  { changed_files := some (some 20), mergeable := some true, baseRef := "main" }

/-- A concrete detail payload whose `changed_files` is JSON `null`. -/
def detailsNull : PRDetails :=
  { changed_files := some none, mergeable := some true, baseRef := "main" }

/-- A concrete passing check run. -/
def runPass : RawRun :=
  { name := "build", status := "completed", conclusion := some "success",
    html_url := "u1" }

/-- A concrete failing check run. -/
def runFail : RawRun :=
  { name := "test", status := "completed", conclusion := some "failure",
    html_url := "u2" }

/-- Fetches where everything succeeds: `detailsA`, one approving review, one
passing check run. -/
def fetchesOk : Fetches :=
  { fetchDetails := fun _ => .ok detailsA
    fetchReviews := fun _ => .ok [{ login := "bob", state := "APPROVED" }]
    checkRunsRequest := fun _ => .ok { check_runs := some [runPass] } }

/-- Fetches whose detail fetch always raises. -/
def fetchesDetailFail : Fetches :=
  { fetchesOk with fetchDetails := fun _ => .error () }

/-- Fetches whose check-run request always raises (details and reviews
still succeed). -/
def fetchesChecksFail : Fetches :=
  { fetchesOk with checkRunsRequest := fun _ => .error () }

/-- Fetches that succeed with a `null` `changed_files` detail payload and a
FAILING check run. -/
def fetchesNullBig : Fetches :=
  { fetchesOk with
    fetchDetails := fun _ => .ok detailsNull
    checkRunsRequest := fun _ => .ok { check_runs := some [runFail] } }

/-- Fetches that succeed with a `null` `changed_files` detail payload and a
passing check run. -/
def fetchesNullOnly : Fetches :=
  { fetchesOk with fetchDetails := fun _ => .ok detailsNull }

/-- A session-page provider that always hands out a next-page token. -/
def endlessPages : Nat → SessionsPage :=
  fun i => { sessions := some [i], nextPageToken := some "t" }

/-- A transport failing on attempts 0 and 1 and succeeding on attempt 2. -/
def transportTwoFails : Nat → Except String String :=
  fun i => if i < 2 then .error ("boom" ++ toString i) else .ok "payload"

/-- A transport failing on every attempt. -/
def transportAllFail : Nat → Except String String :=
  fun i => .error ("boom" ++ toString i)

/-! ## Helper lemmas -/

theorem foldl_snoc_eq_map {α β : Type} (g : α → β) (l : List α) :
    ∀ acc : List β, l.foldl (fun r x => r ++ [g x]) acc = acc ++ l.map g := by
  induction l with
  | nil => intro acc; simp
  | cons x l ih => intro acc; simp [ih (acc ++ [g x])]

theorem serviceEnrich_eq_map (f : Fetches) (prs : List RawPR) :
    serviceEnrich f prs = (prs.take 50).map (serviceEnrichPR f) := by
  unfold serviceEnrich
  rw [foldl_snoc_eq_map, List.nil_append]

theorem clientEnrich_eq_map (f : Fetches) (prs : List RawPR) :
    clientEnrich f prs = (prs.take 50).map (clientEnrichPR f) := by
  unfold clientEnrich
  rw [foldl_snoc_eq_map, List.nil_append]

theorem computeTestStatus_eq_spec (runs : List CheckRun) :
    computeTestStatus runs = specTestStatus runs := by
  unfold computeTestStatus specTestStatus
  by_cases hf : runs.any isFailedRun
  · obtain ⟨a, ha, hpa⟩ := List.any_eq_true.mp hf
    have h1 : 0 < (runs.filter isFailedRun).length := by
      refine List.length_pos.mpr (fun hnil => ?_)
      have : a ∈ runs.filter isFailedRun := List.mem_filter.mpr ⟨ha, hpa⟩
      rw [hnil] at this
      exact absurd this (List.not_mem_nil a)
    simp [hf, h1]
  · have h1 : (runs.filter isFailedRun).length = 0 := by
      rw [List.length_eq_zero, List.filter_eq_nil_iff]
      intro a ha hpa
      exact hf (List.any_eq_true.mpr ⟨a, ha, hpa⟩)
    by_cases hp : runs.any isPendingRun
    · obtain ⟨a, ha, hpa⟩ := List.any_eq_true.mp hp
      have h2 : 0 < (runs.filter isPendingRun).length := by
        refine List.length_pos.mpr (fun hnil => ?_)
        have : a ∈ runs.filter isPendingRun := List.mem_filter.mpr ⟨ha, hpa⟩
        rw [hnil] at this
        exact absurd this (List.not_mem_nil a)
      simp [hf, hp, h1, h2]
    · have h2 : (runs.filter isPendingRun).length = 0 := by
        rw [List.length_eq_zero, List.filter_eq_nil_iff]
        intro a ha hpa
        exact hp (List.any_eq_true.mpr ⟨a, ha, hpa⟩)
      by_cases hn : runs = []
      · simp [hf, hp, h1, h2, hn]
      · simp [hf, hp, h1, h2, List.length_pos.mpr hn, List.isEmpty_iff, hn]

end HRM

namespace HRM

/-! ## Claim theorems -/

/-- C3: the retry client makes at most 3 attempts; when the transport fails
on attempts 0 and 1 and succeeds on attempt 2, `request()` returns the
success after exactly 3 attempts, sleeping 1 second before the second
attempt and 2 seconds before the third; when all 3 attempts fail, the third
attempt's error propagates with no further sleep (the sleep trace is still
exactly `[1, 2]`). -/
theorem claim_C3 (t : Nat → Except String String) :
    (clientRequest t).2.1 ≤ 3 ∧
    (∀ e0 e1 a, t 0 = .error e0 → t 1 = .error e1 → t 2 = .ok a →
      clientRequest t = (.ok a, 3, [1, 2])) ∧
    (∀ e0 e1 e2, t 0 = .error e0 → t 1 = .error e1 → t 2 = .error e2 →
      clientRequest t = (.error e2, 3, [1, 2])) := by
  refine ⟨?_, ?_, ?_⟩
  · cases h0 : t 0 <;> cases h1 : t 1 <;> cases h2 : t 2 <;>
      simp [clientRequest, retryAux, h0, h1, h2]
  · intro e0 e1 a h0 h1 h2
    simp [clientRequest, retryAux, h0, h1, h2]
  · intro e0 e1 e2 h0 h1 h2
    simp [clientRequest, retryAux, h0, h1, h2]

/-- C3 witness: the retry behaviour evaluated at the two concrete
transports (fails twice then succeeds; always fails). -/
theorem claim_C3_witness :
    clientRequest transportTwoFails = (.ok "payload", 3, [1, 2]) ∧
    clientRequest transportAllFail = (.error "boom2", 3, [1, 2]) :=
  ⟨(claim_C3 transportTwoFails).2.1 "boom0" "boom1" "payload" rfl rfl rfl,
   (claim_C3 transportAllFail).2.2 "boom0" "boom1" "boom2" rfl rfl rfl⟩

/-- C7: both enrichment entry points process exactly the first 50 entries of
the supplied open-PR list: the result is the per-PR enrichment mapped over
`prs.take 50`, its length is `min (length prs) 50`, and entries beyond
position 50 contribute nothing (the result of the full list equals the
result of its first 50 entries, so no fetch is triggered for later PRs). -/
theorem claim_C7 (f : Fetches) (prs : List RawPR) :
    serviceEnrich f prs = (prs.take 50).map (serviceEnrichPR f) ∧
    clientEnrich f prs = (prs.take 50).map (clientEnrichPR f) ∧
    (serviceEnrich f prs).length = min prs.length 50 ∧
    (clientEnrich f prs).length = min prs.length 50 ∧
    serviceEnrich f prs = serviceEnrich f (prs.take 50) ∧
    clientEnrich f prs = clientEnrich f (prs.take 50) := by
  refine ⟨serviceEnrich_eq_map f prs, clientEnrich_eq_map f prs, ?_, ?_, ?_, ?_⟩
  · rw [serviceEnrich_eq_map, List.length_map, List.length_take, Nat.min_comm]
  · rw [clientEnrich_eq_map, List.length_map, List.length_take, Nat.min_comm]
  · rw [serviceEnrich_eq_map, serviceEnrich_eq_map, List.take_take]
    norm_num
  · rw [clientEnrich_eq_map, clientEnrich_eq_map, List.take_take]
    norm_num

end HRM

namespace HRM

theorem listSessionsGo_spec (provider : Nat → SessionsPage) :
    ∀ fuel i : Nat, fuel + i = 5 → 0 < fuel →
      1 ≤ (listSessionsGo provider fuel i).2 ∧
      (listSessionsGo provider fuel i).2 ≤ fuel ∧
      (listSessionsGo provider fuel i).1 =
        ((List.range (listSessionsGo provider fuel i).2).map
          (fun j => (provider (i + j)).sessions.getD [])).flatten ∧
      (∀ j, j + 1 < (listSessionsGo provider fuel i).2 →
        tokenTruthy (provider (i + j)).nextPageToken = true) ∧
      (i + (listSessionsGo provider fuel i).2 < 5 →
        tokenTruthy
          (provider (i + (listSessionsGo provider fuel i).2 - 1)).nextPageToken
          = false) := by
  intro fuel
  induction fuel with
  | zero => intro i hsum h0; exact absurd h0 (by omega)
  | succ fuel ih =>
    intro i hsum _
    cases htok : tokenTruthy (provider i).nextPageToken with
    | false =>
      have hres : listSessionsGo provider (fuel + 1) i =
          ((provider i).sessions.getD [], 1) := by
        simp [listSessionsGo, htok]
      rw [hres]
      refine ⟨by omega, by omega, ?_, ?_, ?_⟩
      · simp [List.range_succ]
      · intro j hj; omega
      · intro _; simpa using htok
    | true =>
      by_cases h5 : i + 1 < 5
      · have hfpos : 0 < fuel := by omega
        have ihh := ih (i + 1) (by omega) hfpos
        have hres : listSessionsGo provider (fuel + 1) i =
            ((provider i).sessions.getD [] ++
               (listSessionsGo provider fuel (i + 1)).1,
             (listSessionsGo provider fuel (i + 1)).2 + 1) := by
          simp [listSessionsGo, htok, h5]
        rw [hres]
        obtain ⟨ih1, ih2, ih3, ih4, ih5⟩ := ihh
        refine ⟨by omega, by omega, ?_, ?_, ?_⟩
        · rw [List.range_succ_eq_map]
          simp only [List.map_cons, List.flatten_cons, List.map_map, Nat.add_zero]
          congr 1
          rw [ih3]
          congr 1
          apply List.map_congr_left
          intro j _
          have heq : i + Nat.succ j = i + 1 + j := by omega
          simp only [Function.comp_apply, heq]
        · intro j hj
          cases j with
          | zero => simpa using htok
          | succ jj =>
            have : jj + 1 < (listSessionsGo provider fuel (i + 1)).2 := by omega
            have h4 := ih4 jj this
            have heq : i + (jj + 1) = i + 1 + jj := by omega
            rw [heq]
            exact h4
        · intro hlt
          have hlt' : i + 1 + (listSessionsGo provider fuel (i + 1)).2 < 5 := by
            omega
          have h5' := ih5 hlt'
          have heq : i + ((listSessionsGo provider fuel (i + 1)).2 + 1) - 1 =
              i + 1 + (listSessionsGo provider fuel (i + 1)).2 - 1 := by omega
          rw [heq]
          exact h5'
      · have hres : listSessionsGo provider (fuel + 1) i =
            ((provider i).sessions.getD [], 1) := by
          simp [listSessionsGo, htok, h5]
        rw [hres]
        refine ⟨by omega, by omega, ?_, ?_, ?_⟩
        · simp [List.range_succ]
        · intro j hj; omega
        · intro hlt; omega

/-- C9: for every sequence of paginated session responses — including one
handing out a `nextPageToken` on every page — `list_sessions` performs
between 1 and 5 page fetches, returns the concatenation in page order of the
`sessions` arrays of the fetched pages (a page without a `sessions` key
contributes nothing), every fetched page except the last carried a (truthy)
`nextPageToken`, and it stops before the 5-page cap exactly when the last
fetched page carries no usable `nextPageToken` (absent or empty-string — the
code tests Python truthiness). -/
theorem claim_C9 (provider : Nat → SessionsPage) :
    1 ≤ (listSessions provider).2 ∧ (listSessions provider).2 ≤ 5 ∧
    (listSessions provider).1 =
      ((List.range (listSessions provider).2).map
        (fun j => (provider j).sessions.getD [])).flatten ∧
    (∀ j, j + 1 < (listSessions provider).2 →
      tokenTruthy (provider j).nextPageToken = true) ∧
    ((listSessions provider).2 < 5 →
      tokenTruthy
        (provider ((listSessions provider).2 - 1)).nextPageToken = false) := by
  have h := listSessionsGo_spec provider 5 0 rfl (by omega)
  simpa [listSessions] using h

/-- C9 witness: the pagination evaluated at the provider that always hands
out a next-page token: all 5 pages are fetched, the early-stop clause is
vacuous, and the page-3 token really was truthy. -/
theorem claim_C9_witness :
    (listSessions endlessPages).2 = 5 ∧
    (listSessions endlessPages).1 = [0, 1, 2, 3, 4] ∧
    tokenTruthy (endlessPages 3).nextPageToken = true := by
  have h := claim_C9 endlessPages
  refine ⟨by decide, ?_, h.2.2.2.1 3 (by decide)⟩
  decide

end HRM

namespace HRM

/-- C6 (amended): the failure classification both `_request` implementations
perform on a response.  Status 429, or 403 with `x-ratelimit-remaining: 0`,
raises the fixed rate-limit error; every other status with
`400 ≤ status < 600` (`not response.ok`) raises an error carrying the
provider's JSON `message` when the body parses as JSON containing one and
the generic `Error: <status>` string otherwise; every status outside
400-599 — in particular every 2xx AND every 1xx/3xx status — raises
nothing. -/
theorem claim_C6_amended (r : HttpResponse) :
    (r.status = 429 ∨ (r.status = 403 ∧ r.rateRemaining = some "0") →
      classifyResponse r = some .rateLimit) ∧
    (¬(r.status = 429 ∨ (r.status = 403 ∧ r.rateRemaining = some "0")) →
      400 ≤ r.status → r.status < 600 →
      classifyResponse r = some (.api (match r.jsonMessage with
        | some m => m
        | none => "Error: " ++ toString r.status))) ∧
    (r.status < 400 ∨ 600 ≤ r.status → classifyResponse r = none) := by
  unfold classifyResponse okStatus
  refine ⟨?_, ?_, ?_⟩
  · intro h
    rcases h with h | ⟨h1, h2⟩
    · simp [h]
    · simp [h1, h2]
  · intro hnot h4 h6
    have h429 : ¬r.status = 429 := fun h => hnot (Or.inl h)
    have hrl : ¬(r.status = 403 ∧ r.rateRemaining = some "0") :=
      fun h => hnot (Or.inr h)
    have hcond : (r.status == 429 ||
        (r.status == 403 && r.rateRemaining == some "0")) = false := by
      rw [Bool.or_eq_false_iff, Bool.and_eq_false_iff]
      refine ⟨by simpa using h429, ?_⟩
      by_cases h403 : r.status = 403
      · right
        simp only [beq_eq_false_iff_ne, ne_eq]
        intro hrr
        exact hrl ⟨h403, hrr⟩
      · left
        simpa using h403
    simp [hcond, h4, h6]
  · intro h
    have h429 : ¬r.status = 429 := by omega
    have h403 : ¬r.status = 403 := by omega
    have hok : (decide (400 ≤ r.status) && decide (r.status < 600)) = false := by
      rcases h with h | h
      · simp [decide_eq_false (by omega : ¬400 ≤ r.status)]
      · simp [decide_eq_false (by omega : ¬r.status < 600)]
    simp [h429, h403, hok]

/-- C6 witness: the classification evaluated at three concrete responses —
a 429 (rate limit), a 404 with a provider message (api error carrying that
message), and a 200 (no failure). -/
theorem claim_C6_witness :
    classifyResponse ⟨429, none, none⟩ = some .rateLimit ∧
    classifyResponse ⟨404, none, some "Not Found"⟩ = some (.api "Not Found") ∧
    classifyResponse ⟨200, none, none⟩ = none :=
  ⟨(claim_C6_amended _).1 (Or.inl rfl),
   (claim_C6_amended ⟨404, none, some "Not Found"⟩).2.1 (by simp) (by decide) (by decide),
   (claim_C6_amended ⟨200, none, none⟩).2.2 (Or.inl (by decide))⟩

/-- C6 counterexample to the claim as stated: a 304 response is not a 2xx
status and is not one of the rate-limit cases, yet the client raises nothing
for it — `requests.Response.ok` is `status < 400`, not `2xx`. -/
theorem claim_C6_counterexample :
    classifyResponse ⟨304, none, none⟩ = none ∧
    ¬(200 ≤ 304 ∧ 304 < 300) ∧
    ¬((304 : Nat) = 429 ∨ ((304 : Nat) = 403 ∧ (none : Option String) = some "0")) := by
  refine ⟨?_, by omega, by simp⟩
  rfl

end HRM

namespace HRM

/-- C1 (amended): for every PR whose detail and review fetches succeed
(the check-run fetch cannot raise), the `testStatus` of the constructed
enriched record equals the spec's four-case precedence `failed` >
`pending` > `passed` > `unknown` over the fetched check runs — always in
the service implementation, and in the library client whenever
`changed_files` is not JSON `null`; when it is `null`, the client's record
construction raises and the degraded record's `testStatus` is `unknown`
regardless of the check runs. -/
theorem claim_C1_amended (f : Fetches) (pr : RawPR) (d : PRDetails)
    (rs : List Review)
    (hd : f.fetchDetails pr = .ok d) (hr : f.fetchReviews pr = .ok rs) :
    (serviceEnrichPR f pr).testStatus =
      specTestStatus (fetchCheckRuns (f.checkRunsRequest pr.headSha)) ∧
    (d.changed_files ≠ some none →
      (clientEnrichPR f pr).testStatus =
        specTestStatus (fetchCheckRuns (f.checkRunsRequest pr.headSha))) ∧
    (d.changed_files = some none →
      (clientEnrichPR f pr).testStatus = "unknown") := by
  refine ⟨?_, ?_, ?_⟩
  · simp [serviceEnrichPR, hd, hr, computeTestStatus_eq_spec]
  · intro hcf
    have hbig : clientIsBig d.changed_files = .ok (serviceIsBig d.changed_files) := by
      rcases hv : d.changed_files with _ | cf
      · simp [clientIsBig, serviceIsBig]
      · rcases cf with _ | n
        · exact absurd hv hcf
        · simp [clientIsBig, serviceIsBig]
    simp [clientEnrichPR, hd, hr, hbig, computeTestStatus_eq_spec]
  · intro hcf
    simp [clientEnrichPR, hd, hr, hcf, clientIsBig, clientDegraded]

/-- C1 witness: both enrichment variants at fetches that all succeed with
one completed, successful check run: the derived `testStatus` is
`passed`. -/
theorem claim_C1_witness :
    (serviceEnrichPR fetchesOk prA).testStatus = "passed" ∧
    (clientEnrichPR fetchesOk prA).testStatus = "passed" := by
  have h := claim_C1_amended fetchesOk prA detailsA
    [{ login := "bob", state := "APPROVED" }] rfl rfl
  refine ⟨?_, ?_⟩
  · rw [h.1]; rfl
  · rw [h.2.1 (by decide)]; rfl

/-- C1 counterexample to the claim as stated: in the library client, a PR
whose three fetches all succeed, whose detail has `changed_files: null`,
and whose check runs contain a `failure` conclusion is NOT given
`testStatus = 'failed'` — the record construction raises on
`None > 15` and the degraded fallback reports `unknown`. -/
theorem claim_C1_counterexample :
    fetchesNullBig.fetchDetails prA = .ok detailsNull ∧
    fetchesNullBig.fetchReviews prA =
      .ok [{ login := "bob", state := "APPROVED" }] ∧
    specTestStatus (fetchCheckRuns (fetchesNullBig.checkRunsRequest prA.headSha)) =
      "failed" ∧
    (clientEnrichPR fetchesNullBig prA).testStatus = "unknown" ∧
    (clientEnrichPR fetchesNullBig prA).testStatus ≠ "failed" :=
  ⟨rfl, rfl, rfl, rfl, by decide⟩

/-- C10: `fetch_check_runs` is total at its public interface: `[]` on a
raised underlying request, `[]` on a payload without a `check_runs` array,
and the `{name, status, conclusion, url}` projection otherwise; within
enrichment, a failed check-run request alone never reaches the degraded
branch — the record is built with `checkResults = []` and
`testStatus = 'unknown'` while `isApproved`, `isBig`, `isReadyToMerge` and
`isLeaderBranch` are still computed from the detail and review fetches
(for the client, provided `changed_files` is not JSON `null`, whose
`TypeError` is a failure of its own, cf. C5). -/
theorem claim_C10 (f : Fetches) (pr : RawPR) (d : PRDetails)
    (rs : List Review) (runs : List RawRun)
    (hd : f.fetchDetails pr = .ok d) (hr : f.fetchReviews pr = .ok rs)
    (hc : f.checkRunsRequest pr.headSha = .error ()) :
    fetchCheckRuns (.error ()) = [] ∧
    fetchCheckRuns (.ok ⟨none⟩) = [] ∧
    fetchCheckRuns (.ok ⟨some runs⟩) = runs.map projectRun ∧
    serviceEnrichPR f pr =
      { base := .fromDetails d
        testStatus := "unknown"
        checkResults := some []
        isApproved := isApprovedOf rs
        isBig := serviceIsBig d.changed_files
        isReadyToMerge := isReadyToMergeOf d.mergeable
        isLeaderBranch := isLeaderBranchOf d.baseRef } ∧
    (d.changed_files ≠ some none →
      clientEnrichPR f pr =
        { base := .fromDetails d
          testStatus := "unknown"
          checkResults := some []
          isApproved := isApprovedOf rs
          isBig := serviceIsBig d.changed_files
          isReadyToMerge := isReadyToMergeOf d.mergeable
          isLeaderBranch := isLeaderBranchOf d.baseRef }) := by
  refine ⟨rfl, rfl, rfl, ?_, ?_⟩
  · simp [serviceEnrichPR, hd, hr, hc, fetchCheckRuns, computeTestStatus]
  · intro hcf
    have hbig : clientIsBig d.changed_files = .ok (serviceIsBig d.changed_files) := by
      rcases hv : d.changed_files with _ | cf
      · simp [clientIsBig, serviceIsBig]
      · rcases cf with _ | n
        · exact absurd hv hcf
        · simp [clientIsBig, serviceIsBig]
    simp [clientEnrichPR, hd, hr, hc, hbig, fetchCheckRuns, computeTestStatus]

/-- C10 witness: both enrichment variants at fetches whose check-run
request raises: full records with empty check results, `unknown` test
status, and all four other derived fields computed. -/
theorem claim_C10_witness :
    serviceEnrichPR fetchesChecksFail prA =
      ⟨.fromDetails detailsA, "unknown", some [], true, true, true, true⟩ ∧
    clientEnrichPR fetchesChecksFail prA =
      ⟨.fromDetails detailsA, "unknown", some [], true, true, true, true⟩ := by
  have h := claim_C10 fetchesChecksFail prA detailsA
    [{ login := "bob", state := "APPROVED" }] [] rfl rfl rfl
  refine ⟨?_, ?_⟩
  · rw [h.2.2.2.1]; decide
  · rw [h.2.2.2.2 (by decide)]; decide

end HRM

namespace HRM

/-- C2 (amended): enrichment is pointwise over the processed subset (the
first 50 PRs), so one PR's failure never aborts the batch and every
processed PR contributes exactly one record whose content is independent of
the other PRs; when the detail or the review fetch of a PR raises (the
check-run fetch cannot raise), that PR's record is the degraded fallback
keeping the original PR fields — in the service implementation all six
derived fields are reset, `checkResults = []` included, while the library
client's degraded record resets only the five others and carries no
`checkResults` key at all. -/
theorem claim_C2_amended (f : Fetches) (prs : List RawPR) (pr : RawPR) :
    serviceEnrich f prs = (prs.take 50).map (serviceEnrichPR f) ∧
    clientEnrich f prs = (prs.take 50).map (clientEnrichPR f) ∧
    (f.fetchDetails pr = .error () →
      serviceEnrichPR f pr = serviceDegraded pr ∧
      clientEnrichPR f pr = clientDegraded pr) ∧
    (∀ d, f.fetchDetails pr = .ok d → f.fetchReviews pr = .error () →
      serviceEnrichPR f pr = serviceDegraded pr ∧
      clientEnrichPR f pr = clientDegraded pr) ∧
    serviceDegraded pr =
      ⟨.fromPR pr, "unknown", some [], false, false, false, false⟩ ∧
    clientDegraded pr =
      ⟨.fromPR pr, "unknown", none, false, false, false, false⟩ ∧
    (serviceEnrich f prs).length = min prs.length 50 ∧
    (clientEnrich f prs).length = min prs.length 50 := by
  refine ⟨serviceEnrich_eq_map f prs, clientEnrich_eq_map f prs, ?_, ?_, rfl, rfl,
    ?_, ?_⟩
  · intro hd
    exact ⟨by simp [serviceEnrichPR, hd], by simp [clientEnrichPR, hd]⟩
  · intro d hd hr
    exact ⟨by simp [serviceEnrichPR, hd, hr], by simp [clientEnrichPR, hd, hr]⟩
  · rw [serviceEnrich_eq_map, List.length_map, List.length_take, Nat.min_comm]
  · rw [clientEnrich_eq_map, List.length_map, List.length_take, Nat.min_comm]

/-- C2 witness: a failing detail fetch evaluated concretely — both variants
produce their degraded record, and a 2-element batch still yields 2
records. -/
theorem claim_C2_witness :
    serviceEnrichPR fetchesDetailFail prB = serviceDegraded prB ∧
    clientEnrichPR fetchesDetailFail prB = clientDegraded prB ∧
    (serviceEnrich fetchesDetailFail [prA, prB]).length = min 2 50 := by
  have h := claim_C2_amended fetchesDetailFail [prA, prB] prB
  have hdeg := h.2.2.1 rfl
  exact ⟨hdeg.1, hdeg.2, by simpa using h.2.2.2.2.2.2.1⟩

/-- C2 counterexample to the claim as stated: in the library client, a PR
whose detail fetch raises gets a degraded record WITHOUT `checkResults` —
the key is absent (`none`), not reset to the empty list — whereas the
service's degraded record does set `checkResults = []`. -/
theorem claim_C2_counterexample :
    fetchesDetailFail.fetchDetails prB = .error () ∧
    (clientEnrichPR fetchesDetailFail prB).checkResults = none ∧
    (none : Option (List CheckRun)) ≠ some [] ∧
    (serviceEnrichPR fetchesDetailFail prB).checkResults = some [] :=
  ⟨rfl, rfl, by decide, rfl⟩

/-- C5 (amended): when the detail and review fetches succeed, the service
implementation always constructs the record and sets
`isBig = (changed_files > 15)` with a missing or `null` `changed_files`
treated as 0 (hence not-big); the library client does so for a missing
`changed_files` (default 0) and for an integer value, but a `null` value
makes `None > 15` raise, so that PR's enrichment degrades to the fallback
record instead of succeeding. -/
theorem claim_C5_amended (f : Fetches) (pr : RawPR) (d : PRDetails)
    (rs : List Review)
    (hd : f.fetchDetails pr = .ok d) (hr : f.fetchReviews pr = .ok rs) :
    (serviceEnrichPR f pr).base = .fromDetails d ∧
    (serviceEnrichPR f pr).isBig = serviceIsBig d.changed_files ∧
    serviceIsBig none = false ∧
    serviceIsBig (some none) = false ∧
    (∀ n : Int, serviceIsBig (some (some n)) = decide (n > 15)) ∧
    (d.changed_files = none →
      (clientEnrichPR f pr).base = .fromDetails d ∧
      (clientEnrichPR f pr).isBig = false) ∧
    (∀ n : Int, d.changed_files = some (some n) →
      (clientEnrichPR f pr).base = .fromDetails d ∧
      (clientEnrichPR f pr).isBig = decide (n > 15)) ∧
    (d.changed_files = some none → clientEnrichPR f pr = clientDegraded pr) := by
  refine ⟨by simp [serviceEnrichPR, hd, hr], by simp [serviceEnrichPR, hd, hr],
    rfl, rfl, fun n => rfl, ?_, ?_, ?_⟩
  · intro hcf
    constructor <;> simp [clientEnrichPR, hd, hr, hcf, clientIsBig]
  · intro n hcf
    constructor <;> simp [clientEnrichPR, hd, hr, hcf, clientIsBig]
  · intro hcf
    simp [clientEnrichPR, hd, hr, hcf, clientIsBig]

/-- C5 witness: the classification evaluated where all fetches succeed with
`changed_files = 20`: both variants construct the record and report
`isBig = true` (20 > 15). -/
theorem claim_C5_witness :
    (serviceEnrichPR fetchesOk prA).isBig = true ∧
    (clientEnrichPR fetchesOk prA).isBig = true ∧
    (clientEnrichPR fetchesOk prA).base = .fromDetails detailsA := by
  have h := claim_C5_amended fetchesOk prA detailsA
    [{ login := "bob", state := "APPROVED" }] rfl rfl
  have h20 := h.2.2.2.2.2.2.1 20 rfl
  exact ⟨by rw [h.2.1]; rfl, by rw [h20.2]; rfl, h20.1⟩

/-- C5 counterexample to the claim as stated: in the library client a PR
detail record fetched successfully with `changed_files: null` is not
classified not-big with the enrichment succeeding — the whole enrichment of
that PR degrades to the fallback record (original PR fields kept,
`testStatus = unknown`). -/
theorem claim_C5_counterexample :
    fetchesNullOnly.fetchDetails prB = .ok detailsNull ∧
    detailsNull.changed_files = some none ∧
    clientEnrichPR fetchesNullOnly prB = clientDegraded prB ∧
    (clientEnrichPR fetchesNullOnly prB).base = .fromPR prB ∧
    (clientEnrichPR fetchesNullOnly prB).testStatus = "unknown" :=
  ⟨rfl, rfl, rfl, rfl, rfl⟩

end HRM

namespace HRM

theorem pyTake1500_empty : pyTake1500 "" = "" := rfl

theorem clientCtx_fileList (root readme pkg ci : ContentResp) :
    (clientFetchCoreRepoContext root readme pkg ci).fileList =
      clientFileListSpec root := by
  cases root <;> rfl

theorem clientCtx_readme (root readme pkg ci : ContentResp) :
    (clientFetchCoreRepoContext root readme pkg ci).readmeSnippet =
      .str (clientSnippetSpec readme) := by
  cases readme <;>
    simp [clientFetchCoreRepoContext, clientFetchRepoContent, clientSnippetSpec,
      pyTake1500_empty]

theorem clientCtx_pkg (root readme pkg ci : ContentResp) :
    (clientFetchCoreRepoContext root readme pkg ci).packageJson =
      .str (clientSnippetSpec pkg) := by
  cases pkg <;>
    simp [clientFetchCoreRepoContext, clientFetchRepoContent, clientSnippetSpec,
      pyTake1500_empty]

theorem clientCtx_hasCI (root readme pkg ci : ContentResp) :
    (clientFetchCoreRepoContext root readme pkg ci).hasCI = hasCISpec ci := by
  cases ci <;> rfl

theorem clientCtx_spec (root readme pkg ci : ContentResp) :
    clientFetchCoreRepoContext root readme pkg ci =
      { fileList := clientFileListSpec root
        readmeSnippet := .str (clientSnippetSpec readme)
        packageJson := .str (clientSnippetSpec pkg)
        hasCI := hasCISpec ci } := by
  have h1 := clientCtx_fileList root readme pkg ci
  have h2 := clientCtx_readme root readme pkg ci
  have h3 := clientCtx_pkg root readme pkg ci
  have h4 := clientCtx_hasCI root readme pkg ci
  cases hc : clientFetchCoreRepoContext root readme pkg ci
  rw [hc] at h1 h2 h3 h4
  simp only at h1 h2 h3 h4
  rw [h1, h2, h3, h4]

theorem serviceSnippetRun (c : ContentResp) :
    serviceSnippet (pyOrEmptyStr (serviceFetchRepoContent c)) =
      (if serviceRaisesOn c then .error () else .ok (serviceSnippetSpec c)) := by
  cases c with
  | err => rfl
  | listing ps =>
    cases hp : ps.isEmpty <;>
      simp [serviceFetchRepoContent, pyOrEmptyStr, pyTruthy, hp,
        serviceSnippet, pySlice1500, serviceRaisesOn, serviceSnippetSpec]
  | fileB64 d =>
    cases hd : d == "" <;>
      simp [serviceFetchRepoContent, pyOrEmptyStr, pyTruthy, hd,
        serviceSnippet, pySlice1500, serviceRaisesOn, serviceSnippetSpec]
  | objOther => rfl

theorem serviceCtx_spec (root readme pkg ci : ContentResp) :
    serviceFetchCoreRepoContext root readme pkg ci =
      (if serviceRaisesOn readme || serviceRaisesOn pkg then .error ()
       else .ok { fileList := serviceFileListSpec root
                  readmeSnippet := serviceSnippetSpec readme
                  packageJson := serviceSnippetSpec pkg
                  hasCI := hasCISpec ci }) := by
  simp only [serviceFetchCoreRepoContext]
  rw [serviceSnippetRun readme, serviceSnippetRun pkg]
  cases hA : serviceRaisesOn readme <;> cases hB : serviceRaisesOn pkg <;>
    simp [hA, hB]
  cases root <;> cases ci <;> exact ⟨rfl, rfl⟩

end HRM

namespace HRM

/-- C8 (amended): both collectors compute each field of the context bundle
from that field's own request outcome alone, so no fetch's failure changes
another field's value, and text fields are truncated to their first 1500
characters after base64 decoding.  The library client's collector never
raises; in it a FAILED root listing yields `fileList = ''` (the raised
listing is replaced by the empty list and joined), while `'unknown'` is
produced only for a non-list root payload; failed or non-string README and
package-manifest fetches yield `''` for that field only, and a failed
workflow-directory fetch yields `hasCI = false`.  The service's collector
yields `fileList = 'unknown'` on a failed root listing and the same
fallbacks otherwise, but it is total only up to content payloads that are
JSON objects without non-empty base64 content (e.g. an empty README): those
slip through `or ""` truthy and make `value[:1500]` raise a `TypeError`,
modelled by the `Except.error` branch of the characterization. -/
theorem claim_C8_amended (root readme pkg ci : ContentResp) :
    clientFetchCoreRepoContext root readme pkg ci =
      { fileList := clientFileListSpec root
        readmeSnippet := .str (clientSnippetSpec readme)
        packageJson := .str (clientSnippetSpec pkg)
        hasCI := hasCISpec ci } ∧
    serviceFetchCoreRepoContext root readme pkg ci =
      (if serviceRaisesOn readme || serviceRaisesOn pkg then .error ()
       else .ok { fileList := serviceFileListSpec root
                  readmeSnippet := serviceSnippetSpec readme
                  packageJson := serviceSnippetSpec pkg
                  hasCI := hasCISpec ci }) :=
  ⟨clientCtx_spec root readme pkg ci, serviceCtx_spec root readme pkg ci⟩

/-- C8 counterexample to the claim as stated: a failed root listing makes
the library client's collector report `fileList = ''`, not `'unknown'`;
and the service's collector raises (rather than falling back) when the
README request answers a JSON object whose base64 content is empty. -/
theorem claim_C8_counterexample :
    (clientFetchCoreRepoContext .err .err .err .err).fileList = "" ∧
    (clientFetchCoreRepoContext .err .err .err .err).fileList ≠ "unknown" ∧
    serviceFetchCoreRepoContext .err (.fileB64 "") .err .err = .error () := by
  refine ⟨?_, ?_, ?_⟩
  · rw [clientCtx_fileList]; rfl
  · rw [clientCtx_fileList]; decide
  · rfl

end HRM

namespace HRM

theorem lookup_map_replace (k v k' : String) (hne : k' ≠ k) :
    ∀ m : List (String × String),
      lookupLogin (m.map (fun p => if p.1 == k then (k, v) else p)) k' =
        lookupLogin m k' := by
  intro m
  induction m with
  | nil => rfl
  | cons p m ih =>
    by_cases hp : p.1 == k
    · have hp1 : p.1 = k := by simpa using hp
      have hq1 : ((k : String) == k') = false := by
        simp only [beq_eq_false_iff_ne, ne_eq]
        exact fun h => hne h.symm
      simp only [List.map_cons, if_pos hp, lookupLogin, List.find?_cons] at ih ⊢
      simp only [hq1, hp1]
      exact ih
    · have hp0 : (p.1 == k) = false := by simpa using hp
      simp only [List.map_cons, hp0, if_false, Bool.false_eq_true,
        lookupLogin, List.find?_cons] at ih ⊢
      cases hq : (p.1 == k') with
      | true => rfl
      | false => exact ih

theorem lookup_map_replace_found (k v : String) :
    ∀ m : List (String × String), m.any (fun p => p.1 == k) = true →
      lookupLogin (m.map (fun p => if p.1 == k then (k, v) else p)) k =
        some v := by
  intro m
  induction m with
  | nil => intro h; cases h
  | cons p m ih =>
    intro h
    by_cases hp : p.1 == k
    · have hkk : ((k : String) == k) = true := by simp
      simp only [List.map_cons, if_pos hp, lookupLogin, List.find?_cons, hkk]
      rfl
    · have hp0 : (p.1 == k) = false := by simpa using hp
      have hm : m.any (fun p => p.1 == k) = true := by
        simp only [List.any_cons, hp0, Bool.false_or] at h
        exact h
      simp only [List.map_cons, hp0, if_false, Bool.false_eq_true,
        lookupLogin, List.find?_cons, hp0]
      exact ih hm

theorem lookup_upsert (m : List (String × String)) (k v k' : String) :
    lookupLogin (upsertLogin m k v) k' =
      if k' = k then some v else lookupLogin m k' := by
  unfold upsertLogin
  by_cases hmem : m.any (fun p => p.1 == k) = true
  · rw [if_pos hmem]
    by_cases hk : k' = k
    · rw [if_pos hk, hk]
      exact lookup_map_replace_found k v m hmem
    · rw [if_neg hk]
      exact lookup_map_replace k v k' hk m
  · rw [if_neg hmem]
    by_cases hk : k' = k
    · have hnone : lookupLogin m k' = none := by
        unfold lookupLogin
        rw [List.find?_eq_none.mpr]
        · rfl
        · intro p hp hbeq
          apply hmem
          refine List.any_eq_true.mpr ⟨p, hp, ?_⟩
          rw [hk] at hbeq
          exact hbeq
      rw [if_pos hk]
      unfold lookupLogin
      rw [List.find?_append]
      unfold lookupLogin at hnone
      cases hf : m.find? (fun p => p.1 == k') with
      | some p => rw [hf] at hnone; cases hnone
      | none =>
        simp only [hf, Option.none_or]
        have : ((k, v).1 == k') = true := by simp [hk.symm]
        simp [List.find?_cons, this]
    · rw [if_neg hk]
      unfold lookupLogin
      rw [List.find?_append]
      have : ((k, v).1 == k') = false := by
        simp only [beq_eq_false_iff_ne, ne_eq]
        exact fun h => hk h.symm
      cases hf : m.find? (fun p => p.1 == k') with
      | some p => simp [hf]
      | none => simp [hf, List.find?_cons, this]

end HRM

namespace HRM

theorem latest_concat (rs : List Review) (r : Review) :
    latestReviewsByUser (rs ++ [r]) =
      upsertLogin (latestReviewsByUser rs) r.login r.state := by
  unfold latestReviewsByUser
  rw [List.foldl_append]
  rfl

theorem lastState_concat (rs : List Review) (r : Review) (k : String) :
    lastStateFor (rs ++ [r]) k =
      if k = r.login then some r.state else lastStateFor rs k := by
  unfold lastStateFor
  rw [List.filter_append]
  by_cases hk : k = r.login
  · have : (r.login == k) = true := by simp [hk.symm]
    simp only [List.filter_cons, this, if_pos, List.filter_nil,
      List.getLast?_concat, if_pos hk]
    rfl
  · have : (r.login == k) = false := by
      simp only [beq_eq_false_iff_ne, ne_eq]
      exact fun h => hk h.symm
    simp only [List.filter_cons, this, Bool.false_eq_true, if_false,
      List.filter_nil, List.append_nil, if_neg hk]

theorem lookup_latest (rs : List Review) :
    ∀ k : String, lookupLogin (latestReviewsByUser rs) k = lastStateFor rs k := by
  induction rs using List.reverseRecOn with
  | nil => intro k; rfl
  | append_singleton rs r ih =>
    intro k
    rw [latest_concat, lookup_upsert, lastState_concat]
    by_cases hk : k = r.login
    · rw [if_pos hk, if_pos hk]
    · rw [if_neg hk, if_neg hk]
      exact ih k

theorem keys_nodup_upsert (m : List (String × String)) (k v : String)
    (h : (m.map Prod.fst).Nodup) :
    ((upsertLogin m k v).map Prod.fst).Nodup := by
  unfold upsertLogin
  by_cases hmem : m.any (fun p => p.1 == k) = true
  · rw [if_pos hmem]
    have : (List.map (fun p => if p.1 == k then (k, v) else p) m).map Prod.fst =
        m.map Prod.fst := by
      rw [List.map_map]
      apply List.map_congr_left
      intro p _
      by_cases hp : p.1 == k
      · have hp1 : p.1 = k := by simpa using hp
        simp [hp, hp1]
      · have hp1 : ¬p.1 = k := by simpa using hp
        simp [hp, hp1]
    rw [this]
    exact h
  · rw [if_neg hmem]
    rw [List.map_append]
    rw [List.nodup_append]
    refine ⟨h, List.nodup_singleton k, ?_⟩
    intro a ha hb
    simp only [List.map_cons, List.map_nil, List.mem_singleton] at hb
    subst hb
    obtain ⟨p, hp, hpa⟩ := List.mem_map.mp ha
    apply hmem
    refine List.any_eq_true.mpr ⟨p, hp, ?_⟩
    simp [hpa]

theorem keys_nodup_foldl (rs : List Review) :
    ∀ m : List (String × String), (m.map Prod.fst).Nodup →
      (((rs.foldl (fun m r => upsertLogin m r.login r.state) m)).map
        Prod.fst).Nodup := by
  induction rs with
  | nil => intro m h; exact h
  | cons r rs ih =>
    intro m h
    exact ih (upsertLogin m r.login r.state) (keys_nodup_upsert m r.login r.state h)

theorem keys_nodup (rs : List Review) :
    ((latestReviewsByUser rs).map Prod.fst).Nodup :=
  keys_nodup_foldl rs [] List.nodup_nil

theorem find?_key_of_mem :
    ∀ (m : List (String × String)) (p : String × String),
      (m.map Prod.fst).Nodup → p ∈ m →
      m.find? (fun q => q.1 == p.1) = some p := by
  intro m
  induction m with
  | nil => intro p _ hp; cases hp
  | cons q m ih =>
    intro p hnd hp
    rcases List.mem_cons.mp hp with hq | hm
    · subst hq
      simp [List.find?_cons]
    · have hq1 : (q.1 == p.1) = false := by
        simp only [List.map_cons, List.nodup_cons] at hnd
        have : p.1 ∈ m.map Prod.fst := List.mem_map.mpr ⟨p, hm, rfl⟩
        simp only [beq_eq_false_iff_ne, ne_eq]
        intro he
        exact hnd.1 (he ▸ this)
      rw [List.find?_cons_of_neg _ (by simp [hq1])]
      have hnd' : (m.map Prod.fst).Nodup := by
        simp only [List.map_cons, List.nodup_cons] at hnd
        exact hnd.2
      exact ih p hnd' hm

theorem mem_values_iff (m : List (String × String))
    (hnd : (m.map Prod.fst).Nodup) (s : String) :
    s ∈ m.map Prod.snd ↔ ∃ k, lookupLogin m k = some s := by
  constructor
  · intro hs
    obtain ⟨p, hp, hps⟩ := List.mem_map.mp hs
    refine ⟨p.1, ?_⟩
    unfold lookupLogin
    rw [find?_key_of_mem m p hnd hp]
    rw [← hps]
    rfl
  · intro ⟨k, hk⟩
    unfold lookupLogin at hk
    cases hf : m.find? (fun p => p.1 == k) with
    | none => rw [hf] at hk; cases hk
    | some p =>
      rw [hf] at hk
      have hp : p ∈ m := List.mem_of_find?_eq_some hf
      have : p.2 = s := by simpa using hk
      exact List.mem_map.mpr ⟨p, hp, this⟩

theorem mem_states_iff (rs : List Review) (s : String) :
    s ∈ (latestReviewsByUser rs).map Prod.snd ↔
      ∃ k, lastStateFor rs k = some s := by
  rw [mem_values_iff (latestReviewsByUser rs) (keys_nodup rs) s]
  constructor
  · intro ⟨k, hk⟩
    exact ⟨k, by rw [← lookup_latest rs k]; exact hk⟩
  · intro ⟨k, hk⟩
    exact ⟨k, by rw [lookup_latest rs k]; exact hk⟩

end HRM

namespace HRM

/-- C4: `isApproved` is computed after collapsing the fetched review list to
one state per reviewer login, where the last occurrence in list order wins,
and it is true iff the resulting states contain `APPROVED` and do not
contain `CHANGES_REQUESTED`; the enrichment record carries exactly this
value when the fetches succeed.  In particular `[A:APPROVED,
A:CHANGES_REQUESTED]` yields false and the reversed order yields true. -/
theorem claim_C4 :
    (∀ rs : List Review, isApprovedOf rs = true ↔
      ((∃ k, lastStateFor rs k = some "APPROVED") ∧
        ¬∃ k, lastStateFor rs k = some "CHANGES_REQUESTED")) ∧
    (∀ (f : Fetches) (pr : RawPR) (d : PRDetails) (rs : List Review),
      f.fetchDetails pr = .ok d → f.fetchReviews pr = .ok rs →
      (serviceEnrichPR f pr).isApproved = isApprovedOf rs) ∧
    isApprovedOf [{ login := "A", state := "APPROVED" },
      { login := "A", state := "CHANGES_REQUESTED" }] = false ∧
    isApprovedOf [{ login := "A", state := "CHANGES_REQUESTED" },
      { login := "A", state := "APPROVED" }] = true := by
  refine ⟨?_, ?_, by decide, by decide⟩
  · intro rs
    unfold isApprovedOf
    simp only [List.contains, Bool.and_eq_true, Bool.not_eq_true',
      List.elem_eq_mem, decide_eq_true_eq, decide_eq_false_iff_not]
    rw [mem_states_iff, mem_states_iff]
  · intro f pr d rs hd hr
    simp [serviceEnrichPR, hd, hr]

/-- C4 witness: the characterization applied at the one-review list
`[B:APPROVED]`, whose last state per login is `APPROVED` for `B` and never
`CHANGES_REQUESTED`. -/
theorem claim_C4_witness :
    (∃ k, lastStateFor [{ login := "B", state := "APPROVED" }] k =
      some "APPROVED") ∧
    ¬∃ k, lastStateFor [{ login := "B", state := "APPROVED" }] k =
      some "CHANGES_REQUESTED" :=
  (claim_C4.1 [{ login := "B", state := "APPROVED" }]).mp (by decide)

end HRM
